import Mathlib

/-!
Verification of `src/fava/core/fava_options.py` (Fava's option parsing).

The module is embedded shallowly:
* Python strings are `String`, Python ints are `Int` (arbitrary precision in
  Python, so no wrap-around modelling is needed).
* `Custom` models a beancount `Custom` entry as used by `parse_options`:
  its `type`, its `date` (opaque, only stored, never inspected), its list of
  value wrappers (each wrapper's `.value` is a string or some non-string
  object), and its `meta` mapping restricted to the two keys the code reads.
* Python exceptions are the inductive `PyExc`; the `except` clause of
  `parse_options` catches exactly `IndexError`, `TypeError` and
  `AssertionError`, so those are the `caught` ones and the rest propagate.
* `re.compile` is a standard-library primitive; it is passed in as a
  parameter `rc : String → Option String` (`none` models an `re.error`,
  `some` returns the compiled pattern, identified by its pattern text).
* `int(...)` on strings, `str.lower`, `str.strip` and `str.split(" ")` are
  modelled for ASCII input by `pyInt`, `pyLower`, `pyStrip` and
  `String.splitOn`.
* The options dict is an association list `Dict` with Python's dict
  semantics for assignment (update in place, append when the key is new).
-/

namespace FavaOptions

/-- The two `entry.meta` fields the code reads (beancount source metadata). -/
structure Meta where
  filename : String
  lineno : Int
deriving DecidableEq, Repr

/-- `entry.values[i].value`: a string, or some non-string Python object. -/
inductive PyValue where
  | pstr (s : String)
  | pother
deriving DecidableEq, Repr

/-- A beancount `Custom` entry, restricted to the fields `parse_options`
reads: `entry.type`, `entry.date` (opaque here), `entry.values` and
`entry.meta`. -/
structure Custom where
  type : String
  date : Nat
  values : List PyValue
  meta : Meta
deriving DecidableEq, Repr

/-- `InsertEntryOption = namedtuple("InsertEntryOption", "date re filename lineno")`;
the compiled regex is identified by its pattern text. -/
structure InsertEntryOption where
  date : Nat
  re : String
  filename : String
  lineno : Int
deriving DecidableEq, Repr

/-- `OptionError = namedtuple("OptionError", "source message entry")`. -/
structure OptionError where
  source : Meta
  message : String
  entry : Custom
deriving DecidableEq, Repr

/-- A value stored in the options dict. -/
inductive OptValue where
  | vBool (b : Bool)
  | vInt (i : Int)
  | vStr (s : String)
  | vNone
  | vStrList (xs : List String)
  | vInsertList (xs : List InsertEntryOption)
deriving DecidableEq, Repr

abbrev Dict := List (String × OptValue)

/-- Python exceptions that can arise inside the `try` body. -/
inductive PyExc where
  | indexError
  | typeError
  | assertionError
  | valueError
  | reError
deriving DecidableEq, Repr

/-- The exceptions named in the `except (IndexError, TypeError, AssertionError)`
clause of `parse_options`. -/
def caught : PyExc → Bool
  | .indexError => true
  | .typeError => true
  | .assertionError => true
  | .valueError => false
  | .reError => false

/-! ### Python string primitives (ASCII fragment) -/

/-- Python `str.lower` (ASCII). -/
def pyLower (s : String) : String :=
  List.asString (s.toList.map Char.toLower)

/-- Python whitespace characters recognised by `str.strip()` (ASCII). -/
def isPySpace (c : Char) : Bool :=
  c = ' ' || c = '\t' || c = '\n' || c = '\r' || c = Char.ofNat 11 || c = Char.ofNat 12

/-- Python `str.strip()` (ASCII). -/
def pyStrip (s : String) : String :=
  List.asString (((s.toList.dropWhile isPySpace).reverse.dropWhile isPySpace).reverse)

/-- Digit run after the first digit: `int` accepts single underscores
strictly between digits. -/
def pyDigits : List Char → Nat → Option Nat
  | [], acc => some acc
  | '_' :: c :: cs, acc =>
      if c.isDigit then pyDigits cs (acc * 10 + (c.toNat - 48)) else none
  | ['_'], _ => none
  | c :: cs, acc =>
      if c.isDigit then pyDigits cs (acc * 10 + (c.toNat - 48)) else none

/-- A nonempty digit run (underscores allowed between digits). -/
def pyDigitRun : List Char → Option Nat
  | [] => none
  | c :: cs => if c.isDigit then pyDigits cs (c.toNat - 48) else none

/-- Python `int(s)` on a string: optional surrounding whitespace, optional
sign, base-10 digits; `none` models the `ValueError` raise. -/
def pyInt (s : String) : Option Int :=
  match (pyStrip s).toList with
  | '+' :: rest => (pyDigitRun rest).map Int.ofNat
  | '-' :: rest => (pyDigitRun rest).map (fun n => -(Int.ofNat n : Int))
  | rest => (pyDigitRun rest).map Int.ofNat

/-! ### The module-level tables -/

/-- The `DEFAULTS` dict, transcribed entry by entry. -/
def DEFAULTS : Dict := [
  ("account-journal-include-children", .vBool true),
  ("currency-column", .vInt 61),
  ("collapse-pattern", .vStrList []),
  ("conversion-currencies", .vStrList [
    "AED", "AFN", "ALL", "AMD", "ANG", "AOA", "ARS", "AUD", "AWG", "AZN",
    "BAM", "BBD", "BDT", "BGN", "BHD", "BIF", "BMD", "BND", "BOB", "BOV",
    "BRL", "BSD", "BTN", "BWP", "BYN", "BZD", "CAD", "CDF", "CHE", "CHF",
    "CHW", "CLF", "CLP", "CNY", "COP", "COU", "CRC", "CUC", "CUP", "CVE",
    "CZK", "DJF", "DKK", "DOP", "DZD", "EGP", "ERN", "ETB", "EUR", "FJD",
    "FKP", "GBP", "GEL", "GHS", "GIP", "GMD", "GNF", "GTQ", "GYD", "HKD",
    "HNL", "HRK", "HTG", "HUF", "IDR", "ILS", "INR", "IQD", "IRR", "ISK",
    "JMD", "JOD", "JPY", "KES", "KGS", "KHR", "KMF", "KPW", "KRW", "KWD",
    "KYD", "KZT", "LAK", "LBP", "LKR", "LRD", "LSL", "LYD", "MAD", "MDL",
    "MGA", "MKD", "MMK", "MNT", "MOP", "MRU", "MUR", "MVR", "MWK", "MXN",
    "MXV", "MYR", "MZN", "NAD", "NGN", "NIO", "NOK", "NPR", "NZD", "OMR",
    "PAB", "PEN", "PGK", "PHP", "PKR", "PLN", "PYG", "QAR", "RON", "RSD",
    "RUB", "RWF", "SAR", "SBD", "SCR", "SDG", "SEK", "SGD", "SHP", "SLL",
    "SOS", "SRD", "SSP", "STN", "SVC", "SYP", "SZL", "THB", "TJS", "TMT",
    "TND", "TOP", "TRY", "TTD", "TWD", "TZS", "UAH", "UGX", "USD", "USN",
    "UYI", "UYU", "UYW", "UZS", "VES", "VND", "VUV", "WST", "XAF", "XAG",
    "XAU", "XBA", "XBB", "XBC", "XBD", "XCD", "XDR", "XOF", "XPD", "XPF",
    "XPT", "XSU", "XTS", "XUA", "XXX", "YER", "ZAR", "ZMW", "ZWL"]),
  ("auto-reload", .vBool false),
  ("default-file", .vNone),
  ("fiscal-year-end", .vStr ("12-31")),
  ("import-config", .vNone),
  ("import-dirs", .vStrList []),
  ("insert-entry", .vInsertList []),
  ("interval", .vStr ("month")),
  ("journal-show", .vStrList [
    "transaction", "balance", "note", "document", "custom", "budget",
    "query"]),
  ("journal-show-document", .vStrList ["discovered", "statement"]),
  ("journal-show-transaction", .vStrList ["cleared", "pending"]),
  ("language", .vNone),
  ("locale", .vNone),
  ("show-accounts-with-zero-balance", .vBool true),
  ("show-accounts-with-zero-transactions", .vBool true),
  ("show-closed-accounts", .vBool false),
  ("sidebar-show-queries", .vInt 5),
  ("unrealized", .vStr ("Unrealized")),
  ("upcoming-events", .vInt 7),
  ("uptodate-indicator-grey-lookback-days", .vInt 60),
  ("use-external-editor", .vBool false)]

def BOOL_OPTS : List String := [
  "account-journal-include-children",
  "auto-reload",
  "show-accounts-with-zero-balance",
  "show-accounts-with-zero-transactions",
  "show-closed-accounts",
  "use-external-editor"]

def INT_OPTS : List String := [
  "currency-column",
  "sidebar-show-queries",
  "upcoming-events",
  "uptodate-indicator-grey-lookback-days"]

def LIST_OPTS : List String := [
  "conversion-currencies",
  "import-dirs",
  "journal-show",
  "journal-show-document",
  "journal-show-transaction"]

def STR_OPTS : List String := [
  "collapse-pattern",
  "fiscal-year-end",
  "import-config",
  "interval",
  "language",
  "locale",
  "unrealized"]

def MULTI_OPTS : List String := ["collapse-pattern"]

/-! ### Dict operations (Python dict semantics on an association list) -/

def dictGet (d : Dict) (k : String) : Option OptValue :=
  match d with
  | [] => none
  | (k', v) :: rest => if k' = k then some v else dictGet rest k

/-- `d[k] = v`: replace in place when the key exists, append otherwise. -/
def dictSet (d : Dict) (k : String) (v : OptValue) : Dict :=
  match d with
  | [] => [(k, v)]
  | (k', v') :: rest =>
      if k' = k then (k', v) :: rest else (k', v') :: dictSet rest k v

def keysOf (d : Dict) : List String := d.map Prod.fst

/-! ### The body of the `try` for a single entry -/

/-- The `processed_value` chain: `STR_OPTS` / `BOOL_OPTS` / `INT_OPTS` /
`LIST_OPTS` membership tests in source order; an `INT_OPTS` key with a
non-numeric value raises `ValueError`. -/
def processedValue (key value : String) : Except PyExc (Option OptValue) :=
  if STR_OPTS.contains key then .ok (some (.vStr value))
  else if BOOL_OPTS.contains key then .ok (some (.vBool (pyLower value == "true")))
  else if INT_OPTS.contains key then
    match pyInt value with
    | some n => .ok (some (.vInt n))
    | none => .error .valueError
  else if LIST_OPTS.contains key then
    .ok (some (.vStrList ((pyStrip value).splitOn (" "))))
  else .ok none

/-- `options[key].append(processed_value)` for a `MULTI_OPTS` key: the stored
value is always the collapse-pattern string list. -/
def dictAppendOpt (d : Dict) (k : String) (pv : OptValue) : Dict :=
  match dictGet d k, pv with
  | some (.vStrList xs), .vStr s => dictSet d k (.vStrList (xs ++ [s]))
  | _, _ => d

/-- Application of a computed `processed_value` (`if processed_value is not
None: ...`). -/
def applyProcessed (options : Dict) (key : String) : Option OptValue → Dict
  | none => options
  | some pv =>
      if MULTI_OPTS.contains key then dictAppendOpt options key pv
      else dictSet options key pv

/-- The body of the `try` block for one entry, yielding either the updated
options dict or the Python exception that escapes the body. -/
def tryProcess (rc : String → Option String) (options : Dict) (entry : Custom) :
    Except PyExc Dict :=
  match entry.values[0]? with
  | none => .error .indexError
  | some v0 =>
    match v0 with
    | .pother => .error .assertionError
    | .pstr key =>
      if (keysOf DEFAULTS).contains key then
        if key = "default-file" then
          .ok (dictSet options key (.vStr entry.meta.filename))
        else if key = "insert-entry" then
          match entry.values[1]? with
          | none => .error .indexError
          | some PyValue.pother => .error .typeError
          | some (PyValue.pstr pat) =>
            match rc pat with
            | none => .error .reError
            | some compiled =>
              match dictGet options key with
              | some (.vInsertList xs) =>
                  .ok (dictSet options key (.vInsertList (xs ++
                    [⟨entry.date, compiled, entry.meta.filename, entry.meta.lineno⟩])))
              | _ => .ok options
        else
          match entry.values[1]? with
          | none => .error .indexError
          | some PyValue.pother => .error .assertionError
          | some (PyValue.pstr value) =>
            match processedValue key value with
            | .error e => .error e
            | .ok pv => .ok (applyProcessed options key pv)
      else .error .assertionError

/-- `OptionError(entry.meta, "Failed to parse fava-option entry", entry)`. -/
def mkOptionError (entry : Custom) : OptionError :=
  ⟨entry.meta, "Failed to parse fava-option entry", entry⟩

/-- The `for entry in custom_entries` loop: caught exceptions append an
`OptionError`; uncaught ones abort the whole call. -/
def parseLoop (rc : String → Option String) (options : Dict)
    (errors : List OptionError) :
    List Custom → Except PyExc (Dict × List OptionError)
  | [] => .ok (options, errors)
  | entry :: rest =>
      if entry.type = "fava-option" then
        match tryProcess rc options entry with
        | .ok options' => parseLoop rc options' errors rest
        | .error e =>
            if caught e then
              parseLoop rc options (errors ++ [mkOptionError entry]) rest
            else .error e
      else parseLoop rc options errors rest

/-- `parse_options(custom_entries)`; the deep copy of `DEFAULTS` is the
initial value of the options accumulator. -/
def parse_options (rc : String → Option String) (custom_entries : List Custom) :
    Except PyExc (Dict × List OptionError) :=
  parseLoop rc DEFAULTS [] custom_entries

instance {ε : Type _} {α : Type _} [DecidableEq ε] [DecidableEq α] :
    DecidableEq (Except ε α) := fun x y =>
  match x, y with
  | .error a, .error b =>
      if h : a = b then .isTrue (congrArg Except.error h)
      else .isFalse (fun he => h (Except.error.inj he))
  | .ok a, .ok b =>
      if h : a = b then .isTrue (congrArg Except.ok h)
      else .isFalse (fun he => h (Except.ok.inj he))
  | .error _, .ok _ => .isFalse (fun he => Except.noConfusion he)
  | .ok _, .error _ => .isFalse (fun he => Except.noConfusion he)

/-! ### Concrete inputs used by the evidence theorems -/

/-- A `re.compile` on which every pattern compiles. -/
def rcSome : String → Option String := fun s => some s

/-- A `re.compile` on which exactly the pattern `"("` fails, as Python's
does (`re.error: missing ), unterminated subpattern`). -/
def rcParen : String → Option String := fun s => if s = "(" then none else some s

def metaL1 : Meta := ⟨"ledger.beancount", 1⟩

/-- `DATE custom "fava-option" "<k>" "<v>"` loaded from `ledger.beancount`. -/
def entryOf (k v : String) : Custom := ⟨"fava-option", 0, [.pstr k, .pstr v], metaL1⟩

def entryIntBad : Custom := entryOf ("currency-column") "abc"

def entryRegexBad : Custom := entryOf ("insert-entry") "("

def entryIntervalWeek : Custom := entryOf ("interval") "week"

/-! ### Dictionary lemmas -/

theorem dictGet_dictSet (d : Dict) (k : String) (v : OptValue) :
    dictGet (dictSet d k v) k = some v := by
  induction d with
  | nil => simp [dictGet, dictSet]
  | cons p rest ih =>
      obtain ⟨k', v'⟩ := p
      by_cases h : k' = k <;> simp [dictGet, dictSet, h, ih]

theorem keysOf_cons (k' : String) (v' : OptValue) (rest : Dict) :
    keysOf ((k', v') :: rest) = k' :: keysOf rest := rfl

theorem keysOf_dictSet (d : Dict) (k : String) (v : OptValue)
    (hmem : k ∈ keysOf d) :
    keysOf (dictSet d k v) = keysOf d := by
  induction d with
  | nil => simp [keysOf] at hmem
  | cons p rest ih =>
      obtain ⟨k', v'⟩ := p
      by_cases h : k' = k
      · rw [show dictSet ((k', v') :: rest) k v = (k', v) :: rest from by
          simp [dictSet, h]]
        rw [keysOf_cons, keysOf_cons]
      · have hmem' : k ∈ keysOf rest := by
          rw [keysOf_cons] at hmem
          rcases List.mem_cons.mp hmem with h' | h'
          · exact absurd h'.symm h
          · exact h'
        rw [show dictSet ((k', v') :: rest) k v = (k', v') :: dictSet rest k v from by
          simp [dictSet, h]]
        rw [keysOf_cons, keysOf_cons, ih hmem']

theorem dictGet_isSome_mem (d : Dict) (k : String) (v : OptValue)
    (h : dictGet d k = some v) : k ∈ keysOf d := by
  induction d with
  | nil => simp [dictGet] at h
  | cons p rest ih =>
      obtain ⟨k', v'⟩ := p
      rw [keysOf_cons]
      by_cases hk : k' = k
      · exact hk ▸ List.mem_cons_self k' _
      · simp only [dictGet, if_neg hk] at h
        exact List.mem_cons_of_mem k' (ih h)

theorem keysOf_dictAppendOpt (d : Dict) (k : String) (pv : OptValue) :
    keysOf (dictAppendOpt d k pv) = keysOf d := by
  unfold dictAppendOpt
  split
  · rename_i xs s hget
    exact keysOf_dictSet d k _ (dictGet_isSome_mem d k _ hget)
  · rfl

theorem keysOf_applyProcessed (d : Dict) (k : String) (pv : Option OptValue)
    (hmem : k ∈ keysOf d) :
    keysOf (applyProcessed d k pv) = keysOf d := by
  cases pv with
  | none => rfl
  | some v =>
      rw [show applyProcessed d k (some v)
            = if MULTI_OPTS.contains k = true then dictAppendOpt d k v
              else dictSet d k v from rfl]
      by_cases h : MULTI_OPTS.contains k = true
      · rw [if_pos h]; exact keysOf_dictAppendOpt d k v
      · rw [if_neg h]; exact keysOf_dictSet d k v hmem

/-! ### Step lemmas for the per-entry `try` body and the entry loop -/

theorem tryProcess_scalar (rc : String → Option String) (options : Dict)
    (entry : Custom) (k v : String) (pv : Option OptValue)
    (h0 : entry.values[0]? = some (PyValue.pstr k))
    (h1 : entry.values[1]? = some (PyValue.pstr v))
    (hmem : k ∈ keysOf DEFAULTS)
    (hdf : ¬k = "default-file") (hie : ¬k = "insert-entry")
    (hpv : processedValue k v = .ok pv) :
    tryProcess rc options entry = .ok (applyProcessed options k pv) := by
  simp [tryProcess, h0, h1, hmem, hdf, hie, hpv]

theorem tryProcess_unknown_key (rc : String → Option String) (options : Dict)
    (entry : Custom) (k : String)
    (h0 : entry.values[0]? = some (PyValue.pstr k))
    (hnot : ¬k ∈ keysOf DEFAULTS) :
    tryProcess rc options entry = .error .assertionError := by
  simp [tryProcess, h0, hnot]

theorem parseLoop_cons_ok (rc : String → Option String) (options : Dict)
    (errors : List OptionError) (entry : Custom) (rest : List Custom)
    (options' : Dict)
    (htype : entry.type = "fava-option")
    (hstep : tryProcess rc options entry = .ok options') :
    parseLoop rc options errors (entry :: rest)
      = parseLoop rc options' errors rest := by
  simp [parseLoop, htype, hstep]

theorem parseLoop_cons_caught (rc : String → Option String) (options : Dict)
    (errors : List OptionError) (entry : Custom) (rest : List Custom)
    (e : PyExc)
    (htype : entry.type = "fava-option")
    (hstep : tryProcess rc options entry = .error e)
    (hc : caught e = true) :
    parseLoop rc options errors (entry :: rest)
      = parseLoop rc options (errors ++ [mkOptionError entry]) rest := by
  simp [parseLoop, htype, hstep, hc]

theorem parseLoop_cons_uncaught (rc : String → Option String) (options : Dict)
    (errors : List OptionError) (entry : Custom) (rest : List Custom)
    (e : PyExc)
    (htype : entry.type = "fava-option")
    (hstep : tryProcess rc options entry = .error e)
    (hc : caught e = false) :
    parseLoop rc options errors (entry :: rest) = .error e := by
  simp [parseLoop, htype, hstep, hc]

theorem parseLoop_cons_skip (rc : String → Option String) (options : Dict)
    (errors : List OptionError) (entry : Custom) (rest : List Custom)
    (htype : ¬entry.type = "fava-option") :
    parseLoop rc options errors (entry :: rest)
      = parseLoop rc options errors rest := by
  simp [parseLoop, htype]

theorem tryProcess_keysOf (rc : String → Option String) (options : Dict)
    (entry : Custom) (o : Dict)
    (hkeys : keysOf options = keysOf DEFAULTS)
    (h : tryProcess rc options entry = .ok o) :
    keysOf o = keysOf DEFAULTS := by
  unfold tryProcess at h
  split at h
  · exact absurd h (by simp)
  · split at h
    · exact absurd h (by simp)
    · rename_i key heq
      split at h
      · rename_i hcont
        have hm : key ∈ keysOf options := by rw [hkeys]; simpa using hcont
        split at h
        · cases h
          exact (keysOf_dictSet options key _ hm).trans hkeys
        · split at h
          · split at h
            · exact absurd h (by simp)
            · exact absurd h (by simp)
            · split at h
              · exact absurd h (by simp)
              · split at h
                · rename_i xs hget
                  cases h
                  exact (keysOf_dictSet options key _
                    (dictGet_isSome_mem options key _ hget)).trans hkeys
                · cases h; exact hkeys
          · split at h
            · exact absurd h (by simp)
            · exact absurd h (by simp)
            · split at h
              · exact absurd h (by simp)
              · cases h
                exact (keysOf_applyProcessed options key _ hm).trans hkeys
      · exact absurd h (by simp)

theorem parseLoop_keysOf (rc : String → Option String) :
    ∀ (es : List Custom) (options : Dict) (errors : List OptionError)
      (o : Dict) (errs : List OptionError),
      keysOf options = keysOf DEFAULTS →
      parseLoop rc options errors es = .ok (o, errs) →
      keysOf o = keysOf DEFAULTS
  | [], options, errors, o, errs, hkeys, h => by
      simp [parseLoop] at h
      rw [← h.1]; exact hkeys
  | entry :: rest, options, errors, o, errs, hkeys, h => by
      unfold parseLoop at h
      split at h
      · split at h
        · rename_i options' hstep
          exact parseLoop_keysOf rc rest options' errors o errs
            (tryProcess_keysOf rc options entry options' hkeys hstep) h
        · rename_i e hstep
          split at h
          · exact parseLoop_keysOf rc rest options _ o errs hkeys h
          · exact absurd h (by simp)
      · exact parseLoop_keysOf rc rest options errors o errs hkeys h

theorem parseLoop_skip_all (rc : String → Option String) :
    ∀ (es : List Custom) (options : Dict) (errors : List OptionError),
      (∀ e ∈ es, ¬e.type = "fava-option") →
      parseLoop rc options errors es = .ok (options, errors)
  | [], _, _, _ => rfl
  | entry :: rest, options, errors, h => by
      rw [parseLoop_cons_skip rc options errors entry rest
        (h entry (List.mem_cons_self entry rest))]
      exact parseLoop_skip_all rc rest options errors
        (fun e he => h e (List.mem_cons_of_mem entry he))

/-- The shape of an accepted `collapse-pattern` directive carrying value `v`. -/
def collapseShape (e : Custom) (v : String) : Prop :=
  e.type = "fava-option" ∧
  e.values[0]? = some (PyValue.pstr ("collapse-pattern")) ∧
  e.values[1]? = some (PyValue.pstr v)

theorem tryProcess_collapse (rc : String → Option String) (options : Dict)
    (entry : Custom) (v : String) (acc : List String)
    (hs : collapseShape entry v)
    (hacc : dictGet options ("collapse-pattern") = some (.vStrList acc)) :
    tryProcess rc options entry
      = .ok (dictSet options ("collapse-pattern") (.vStrList (acc ++ [v]))) := by
  obtain ⟨htype, h0, h1⟩ := hs
  have hpv : processedValue ("collapse-pattern") v = .ok (some (.vStr v)) := by
    have hc : "collapse-pattern" ∈ STR_OPTS := by decide
    simp [processedValue, hc]
  have happ : applyProcessed options ("collapse-pattern") (some (.vStr v))
      = dictSet options ("collapse-pattern") (.vStrList (acc ++ [v])) := by
    have hm : "collapse-pattern" ∈ MULTI_OPTS := by decide
    simp [applyProcessed, hm, dictAppendOpt, hacc]
  rw [tryProcess_scalar rc options entry ("collapse-pattern") v (some (.vStr v))
    h0 h1 (by decide) (by decide) (by decide) hpv, happ]

theorem parseLoop_collapse (rc : String → Option String) :
    ∀ (es : List Custom) (vs : List String) (options : Dict)
      (errors : List OptionError) (acc : List String),
      List.Forall₂ collapseShape es vs →
      dictGet options ("collapse-pattern") = some (.vStrList acc) →
      ∃ o, parseLoop rc options errors es = .ok (o, errors) ∧
        dictGet o ("collapse-pattern") = some (.vStrList (acc ++ vs)) := by
  intro es vs options errors acc hall
  induction hall generalizing options acc with
  | nil => exact fun hacc => ⟨options, rfl, by simpa using hacc⟩
  | cons he _ ih =>
      intro hacc
      rename_i e v es' vs' _
      rw [parseLoop_cons_ok rc options errors e es' _ he.1
        (tryProcess_collapse rc options e v acc he hacc)]
      obtain ⟨o, hrun, hget⟩ := ih (dictSet options ("collapse-pattern")
        (.vStrList (acc ++ [v]))) (acc ++ [v]) (dictGet_dictSet options _ _)
      exact ⟨o, hrun, by simpa using hget⟩

theorem dictSet_dictSet (d : Dict) (k : String) (v1 v2 : OptValue) :
    dictSet (dictSet d k v1) k v2 = dictSet d k v2 := by
  induction d with
  | nil => simp [dictSet]
  | cons p rest ih =>
      obtain ⟨k', v'⟩ := p
      by_cases h : k' = k <;> simp [dictSet, h, ih]

/-- The shape of an accepted directive for the non-repeatable key `k`:
some second string value whose coercion succeeds with `pv`. -/
def scalarShape (k : String) (e : Custom) (pv : OptValue) : Prop :=
  e.type = "fava-option" ∧ e.values[0]? = some (PyValue.pstr k) ∧
  ∃ v, e.values[1]? = some (PyValue.pstr v) ∧
    processedValue k v = .ok (some pv)

/-- A run of accepted directives for one non-repeatable key overwrites in
input order, so the last directive's coerced value is the stored one. -/
theorem parseLoop_scalar_last (rc : String → Option String) (k : String)
    (hmem : k ∈ keysOf DEFAULTS) (hdf : ¬k = "default-file")
    (hie : ¬k = "insert-entry") (hmc : ¬k ∈ MULTI_OPTS) :
    ∀ (es : List Custom) (pvs : List OptValue) (options : Dict)
      (errors : List OptionError) (pvL : OptValue),
      List.Forall₂ (scalarShape k) es pvs → pvs.getLast? = some pvL →
      parseLoop rc options errors es = .ok (dictSet options k pvL, errors)
  | [], pvs, options, errors, pvL, hall, hlast => by
      cases hall
      simp at hlast
  | e :: es', _, options, errors, pvL, hall, hlast => by
      cases hall with
      | cons he hrest =>
        rename_i pv pvs'
        obtain ⟨htype, h0, v, h1, hpv⟩ := he
        have happ : applyProcessed options k (some pv) = dictSet options k pv := by
          simp [applyProcessed, hmc]
        rw [parseLoop_cons_ok rc options errors e es' _ htype
          (tryProcess_scalar rc options e k v _ h0 h1 hmem hdf hie hpv), happ]
        cases pvs' with
        | nil =>
            cases hrest
            simp only [List.getLast?_singleton, Option.some.injEq] at hlast
            rw [hlast]
            rfl
        | cons pv2 pvs'' =>
            have hlast' : (pv2 :: pvs'').getLast? = some pvL := by
              rw [← hlast, List.getLast?_cons_cons]
            rw [parseLoop_scalar_last rc k hmem hdf hie hmc es' (pv2 :: pvs'')
              (dictSet options k pv) errors pvL hrest hlast', dictSet_dictSet]

/-! ### Claim theorems -/

/-- C1: Refuted as stated. The claim says an integer-typed key given a
non-numeric value yields exactly one `OptionError` with the prior value kept;
in the code `int("abc")` raises `ValueError`, which the
`except (IndexError, TypeError, AssertionError)` clause does not catch, so
the `currency-column "abc"` directive aborts `parse_options` with an
uncaught exception and no `OptionError` is recorded. -/
theorem int_option_valueerror_uncaught :
    pyInt ("abc") = none ∧
    parse_options rcSome [entryIntBad] = Except.error PyExc.valueError :=
  ⟨rfl, rfl⟩

/-- C2: Refuted as stated. The claim says an invalid `insert-entry` regex
yields exactly one `OptionError`; in the code `re.compile` raises `re.error`
(a direct `Exception` subclass), which the `except` clause does not catch,
so for any `re.compile` on which the pattern `"("` fails the directive
aborts `parse_options` with the propagated `re.error`. -/
theorem insert_entry_regex_error_uncaught (rc : String → Option String)
    (h : rc ("(") = none) :
    parse_options rc [entryRegexBad] = Except.error PyExc.reError := by
  have hstep : tryProcess rc DEFAULTS entryRegexBad = .error .reError := by
    have hc : "insert-entry" ∈ keysOf DEFAULTS := by decide
    unfold tryProcess entryRegexBad entryOf
    simp [h, hc]
  exact parseLoop_cons_uncaught rc DEFAULTS [] entryRegexBad [] .reError rfl
    hstep rfl

theorem insert_entry_regex_error_uncaught_witness :
    rcParen ("(") = none ∧
    parse_options rcParen [entryRegexBad] = Except.error PyExc.reError :=
  ⟨rfl, insert_entry_regex_error_uncaught rcParen rfl⟩

/-- C3: Refuted as stated. The claim says `parse_options` always returns
normally and one failing directive never affects its siblings; in the code a
single `currency-column "abc"` directive raises an uncaught `ValueError`
that aborts the whole call, discarding the result of the earlier accepted
`interval "week"` directive. -/
theorem malformed_entry_aborts_run :
    parse_options rcSome [entryIntervalWeek]
      = Except.ok (dictSet DEFAULTS ("interval") (OptValue.vStr ("week")), []) ∧
    parse_options rcSome [entryIntervalWeek, entryIntBad]
      = Except.error PyExc.valueError :=
  ⟨rfl, rfl⟩

/-- C4: A `fava-option` directive whose key is not a key of `DEFAULTS`
appends exactly one `OptionError` (the fixed message together with the
entry's meta and the entry itself) and the loop continues with the options
accumulator unchanged, wherever the directive occurs in the run. -/
theorem unknown_key_one_error_no_mutation (rc : String → Option String)
    (options : Dict) (errors : List OptionError) (entry : Custom)
    (rest : List Custom) (k : String)
    (htype : entry.type = "fava-option")
    (h0 : entry.values[0]? = some (PyValue.pstr k))
    (hnot : ¬k ∈ keysOf DEFAULTS) :
    parseLoop rc options errors (entry :: rest)
      = parseLoop rc options (errors ++ [mkOptionError entry]) rest :=
  parseLoop_cons_caught rc options errors entry rest .assertionError htype
    (tryProcess_unknown_key rc options entry k h0 hnot) rfl

theorem unknown_key_one_error_no_mutation_witness :
    parseLoop rcSome DEFAULTS [] [entryOf ("not-a-real-option") "x"]
      = parseLoop rcSome DEFAULTS
          ([] ++ [mkOptionError (entryOf ("not-a-real-option") "x")]) [] :=
  unknown_key_one_error_no_mutation rcSome DEFAULTS []
    (entryOf ("not-a-real-option") "x") [] "not-a-real-option" rfl rfl (by decide)

/-- Shared step for C5: a `BOOL_OPTS` key with a string value is accepted
and stores `value.lower() == "true"`, no error appended. -/
theorem bool_step (rc : String → Option String) (options : Dict)
    (errors : List OptionError) (entry : Custom) (rest : List Custom)
    (k v : String)
    (htype : entry.type = "fava-option")
    (h0 : entry.values[0]? = some (PyValue.pstr k))
    (h1 : entry.values[1]? = some (PyValue.pstr v))
    (hsc : ¬k ∈ STR_OPTS) (hbc : k ∈ BOOL_OPTS)
    (hmem : k ∈ keysOf DEFAULTS)
    (hdf : ¬k = "default-file") (hie : ¬k = "insert-entry")
    (hmc : ¬k ∈ MULTI_OPTS) :
    parseLoop rc options errors (entry :: rest)
      = parseLoop rc (dictSet options k (.vBool (pyLower v == "true")))
          errors rest := by
  have hpv : processedValue k v = .ok (some (.vBool (pyLower v == "true"))) := by
    simp [processedValue, hsc, hbc]
  have happ : applyProcessed options k (some (.vBool (pyLower v == "true")))
      = dictSet options k (.vBool (pyLower v == "true")) := by
    simp [applyProcessed, hmc]
  have := parseLoop_cons_ok rc options errors entry rest _ htype
    (tryProcess_scalar rc options entry k v _ h0 h1 hmem hdf hie hpv)
  rw [happ] at this
  exact this

/-- C5: For every `BOOL_OPTS` key and every string value, the stored result
is `value.lower() == "true"` — true exactly when the lowercased value is the
token `"true"` — any other token (e.g. `"yes"`, `"false"`) stores `false`,
and no error is recorded. -/
theorem bool_coercion_lenient (rc : String → Option String) (options : Dict)
    (errors : List OptionError) (entry : Custom) (rest : List Custom)
    (k v : String)
    (htype : entry.type = "fava-option")
    (h0 : entry.values[0]? = some (PyValue.pstr k))
    (h1 : entry.values[1]? = some (PyValue.pstr v))
    (hk : k ∈ BOOL_OPTS) :
    parseLoop rc options errors (entry :: rest)
      = parseLoop rc (dictSet options k (.vBool (pyLower v == "true")))
          errors rest ∧
    ((pyLower v == "true") = true ↔ pyLower v = "true") := by
  refine ⟨?_, by simp⟩
  have hk' : k = "account-journal-include-children" ∨ k = "auto-reload" ∨
      k = "show-accounts-with-zero-balance" ∨
      k = "show-accounts-with-zero-transactions" ∨
      k = "show-closed-accounts" ∨ k = "use-external-editor" := by
    simpa [BOOL_OPTS] using hk
  rcases hk' with rfl | rfl | rfl | rfl | rfl | rfl <;>
    exact bool_step rc options errors entry rest _ v htype h0 h1
      (by decide) (by decide) (by decide) (by decide) (by decide) (by decide)

theorem bool_coercion_lenient_witness :
    (parseLoop rcSome DEFAULTS [] [entryOf ("auto-reload") "TRUE"]
      = parseLoop rcSome
          (dictSet DEFAULTS ("auto-reload") (.vBool (pyLower ("TRUE") == "true")))
          [] [] ∧
    ((pyLower ("TRUE") == "true") = true ↔ pyLower ("TRUE") = "true")) ∧
    pyLower ("TRUE") = "true" :=
  ⟨bool_coercion_lenient rcSome DEFAULTS [] (entryOf ("auto-reload") "TRUE") []
    "auto-reload" "TRUE" rfl rfl rfl (by decide), rfl⟩

/-- C6: Accepted directives apply in input order: (1) for a non-repeatable
key, any run of one or more valid directives for that key (so in particular
two or more) resolves to the coercion of the last directive's value, each
one overwriting its predecessor; (2) for the repeatable `collapse-pattern`
key, N valid directives resolve to the default list followed by the N
values in input order; (3) the `collapse-pattern` default list is `[]`. -/
theorem ordering_last_wins_and_multi_appends (rc : String → Option String) :
    (∀ (k : String) (es : List Custom) (pvs : List OptValue) (pvL : OptValue),
      k ∈ keysOf DEFAULTS → ¬k = "default-file" → ¬k = "insert-entry" →
      ¬k ∈ MULTI_OPTS →
      List.Forall₂ (scalarShape k) es pvs → pvs.getLast? = some pvL →
      parse_options rc es = .ok (dictSet DEFAULTS k pvL, []) ∧
      dictGet (dictSet DEFAULTS k pvL) k = some pvL) ∧
    (∀ (es : List Custom) (vs : List String),
      List.Forall₂ collapseShape es vs →
      ∃ o, parse_options rc es = .ok (o, []) ∧
        dictGet o ("collapse-pattern") = some (OptValue.vStrList vs)) ∧
    dictGet DEFAULTS ("collapse-pattern") = some (OptValue.vStrList []) := by
  refine ⟨?_, ?_, rfl⟩
  · intro k es pvs pvL hmem hdf hie hmc hall hlast
    exact ⟨parseLoop_scalar_last rc k hmem hdf hie hmc es pvs DEFAULTS [] pvL
      hall hlast, dictGet_dictSet DEFAULTS k pvL⟩
  · intro es vs hall
    obtain ⟨o, hrun, hget⟩ := parseLoop_collapse rc es vs DEFAULTS [] [] hall rfl
    exact ⟨o, hrun, by simpa using hget⟩

theorem ordering_last_wins_and_multi_appends_witness :
    (parse_options rcSome [entryOf ("upcoming-events") "3",
        entryOf ("upcoming-events") "10", entryOf ("upcoming-events") "4"]
      = .ok (dictSet DEFAULTS ("upcoming-events") (.vInt 4), []) ∧
     dictGet (dictSet DEFAULTS ("upcoming-events") (.vInt 4))
        "upcoming-events" = some (.vInt 4)) ∧
    (∃ o, parse_options rcSome
        [entryOf ("collapse-pattern") "a", entryOf ("collapse-pattern") "b"]
        = .ok (o, []) ∧
      dictGet o ("collapse-pattern") = some (OptValue.vStrList ["a", "b"])) :=
  ⟨(ordering_last_wins_and_multi_appends rcSome).1
      "upcoming-events"
      [entryOf ("upcoming-events") "3", entryOf ("upcoming-events") "10",
        entryOf ("upcoming-events") "4"]
      [.vInt 3, .vInt 10, .vInt 4] (.vInt 4)
      (by decide) (by decide) (by decide) (by decide)
      (List.Forall₂.cons ⟨rfl, rfl, "3", rfl, rfl⟩
        (List.Forall₂.cons ⟨rfl, rfl, "10", rfl, rfl⟩
          (List.Forall₂.cons ⟨rfl, rfl, "4", rfl, rfl⟩ List.Forall₂.nil)))
      rfl,
   (ordering_last_wins_and_multi_appends rcSome).2.1
      [entryOf ("collapse-pattern") "a", entryOf ("collapse-pattern") "b"]
      ["a", "b"]
      (List.Forall₂.cons ⟨rfl, rfl, rfl⟩
        (List.Forall₂.cons ⟨rfl, rfl, rfl⟩ List.Forall₂.nil))⟩

/-- C7: A run over a sequence containing no entry with the `fava-option`
marker (in particular the empty sequence) returns the `DEFAULTS` table
itself and an empty error list. -/
theorem no_marker_returns_defaults (rc : String → Option String)
    (entries : List Custom)
    (h : ∀ e ∈ entries, ¬e.type = "fava-option") :
    parse_options rc entries = .ok (DEFAULTS, []) :=
  parseLoop_skip_all rc entries DEFAULTS [] h

theorem no_marker_returns_defaults_witness :
    parse_options rcSome [⟨"other-custom", 0, [.pstr ("x")], metaL1⟩]
      = .ok (DEFAULTS, []) :=
  no_marker_returns_defaults rcSome [⟨"other-custom", 0, [.pstr ("x")], metaL1⟩]
    (by decide)

/-- C9: Whenever `parse_options` returns normally, the key list of the
returned options dict is exactly the key list of `DEFAULTS` — no directive
can add or remove a key. -/
theorem key_set_preserved (rc : String → Option String)
    (entries : List Custom) (o : Dict) (errs : List OptionError)
    (h : parse_options rc entries = .ok (o, errs)) :
    keysOf o = keysOf DEFAULTS :=
  parseLoop_keysOf rc entries DEFAULTS [] o errs rfl h

theorem key_set_preserved_witness :
    keysOf (dictSet DEFAULTS ("interval") (OptValue.vStr ("week")))
      = keysOf DEFAULTS :=
  key_set_preserved rcSome [entryOf ("interval") "week"]
    (dictSet DEFAULTS ("interval") (OptValue.vStr ("week"))) [] rfl

/-- C10: A `fava-option` directive whose first value is `default-file`
succeeds with no error — whatever the rest of `entry.values` is, so in
particular with no second value — and sets the option to the directive's
source filename taken from `entry.meta`. -/
theorem default_file_ignores_second_value (rc : String → Option String)
    (options : Dict) (errors : List OptionError) (entry : Custom)
    (rest : List Custom)
    (htype : entry.type = "fava-option")
    (h0 : entry.values[0]? = some (PyValue.pstr ("default-file"))) :
    parseLoop rc options errors (entry :: rest)
      = parseLoop rc
          (dictSet options ("default-file") (.vStr entry.meta.filename))
          errors rest := by
  have hc : "default-file" ∈ keysOf DEFAULTS := by decide
  exact parseLoop_cons_ok rc options errors entry rest _ htype
    (by simp [tryProcess, h0, hc])

theorem default_file_ignores_second_value_witness :
    parseLoop rcSome DEFAULTS [] [⟨"fava-option", 0, [.pstr ("default-file")], metaL1⟩]
      = parseLoop rcSome
          (dictSet DEFAULTS ("default-file") (.vStr metaL1.filename)) [] [] :=
  default_file_ignores_second_value rcSome DEFAULTS []
    ⟨"fava-option", 0, [.pstr ("default-file")], metaL1⟩ [] rfl rfl

/-! ### Heap model for the deep-copy claim

Python dicts and lists are mutable heap objects; `options[key] = v` mutates
the dict object, `options[key].append(x)` mutates the referenced list
object.  To settle the claim that `copy.deepcopy(DEFAULTS)` shields the
module-level table, the run is repeated over an explicit object heap:
addresses are indices into a list of objects, `DEFAULTS` and its nested
lists are the objects allocated at module load, and `deepcopy` allocates
fresh objects for the dict and every nested list. -/

/-- A value stored in a dict slot on the heap; lists are by reference. -/
inductive HVal where
  | hBool (b : Bool)
  | hInt (i : Int)
  | hStr (s : String)
  | hNone
  | hRef (a : Nat)
deriving DecidableEq, Repr

/-- A heap object: a dict, a list of strings, or the insert-entry list. -/
inductive HObj where
  | oDict (slots : List (String × HVal))
  | oStrs (xs : List String)
  | oInserts (xs : List InsertEntryOption)
deriving DecidableEq, Repr

abbrev Heap := List HObj

def hget (h : Heap) (a : Nat) : Option HObj := h[a]?

def slotsGet (s : List (String × HVal)) (k : String) : Option HVal :=
  match s with
  | [] => none
  | (k', v) :: rest => if k' = k then some v else slotsGet rest k

def slotsSet (s : List (String × HVal)) (k : String) (v : HVal) :
    List (String × HVal) :=
  match s with
  | [] => [(k, v)]
  | (k', v') :: rest =>
      if k' = k then (k', v) :: rest else (k', v') :: slotsSet rest k v

def hDictGet (h : Heap) (a : Nat) (k : String) : Option HVal :=
  match hget h a with
  | some (.oDict s) => slotsGet s k
  | _ => none

def hDictSet (h : Heap) (a : Nat) (k : String) (v : HVal) : Heap :=
  match hget h a with
  | some (.oDict s) => h.set a (.oDict (slotsSet s k v))
  | _ => h

def hAppendStr (h : Heap) (a : Nat) (s : String) : Heap :=
  match hget h a with
  | some (.oStrs xs) => h.set a (.oStrs (xs ++ [s]))
  | _ => h

def hAppendIns (h : Heap) (a : Nat) (x : InsertEntryOption) : Heap :=
  match hget h a with
  | some (.oInserts xs) => h.set a (.oInserts (xs ++ [x]))
  | _ => h

/-- Turn one `DEFAULTS` value into a heap slot, allocating list objects. -/
def hvalOfOpt (h : Heap) : OptValue → Heap × HVal
  | .vBool b => (h, .hBool b)
  | .vInt i => (h, .hInt i)
  | .vStr s => (h, .hStr s)
  | .vNone => (h, .hNone)
  | .vStrList xs => (h ++ [.oStrs xs], .hRef h.length)
  | .vInsertList xs => (h ++ [.oInserts xs], .hRef h.length)

def buildSlots (h : Heap) : Dict → Heap × List (String × HVal)
  | [] => (h, [])
  | (k, v) :: rest =>
      let hv := hvalOfOpt h v
      let hs := buildSlots hv.1 rest
      (hs.1, (k, hv.2) :: hs.2)

/-- The heap at module load: the nested list objects of `DEFAULTS`,
followed by the `DEFAULTS` dict itself; the address is the dict's. -/
def initHeap : Heap × Nat :=
  ((buildSlots [] DEFAULTS).1 ++ [.oDict (buildSlots [] DEFAULTS).2],
   (buildSlots [] DEFAULTS).1.length)

/-- `copy.deepcopy` of one dict slot: a referenced object is copied to a
fresh address, scalars are shared (immutable in Python). -/
def copyVal (h : Heap) : HVal → Heap × HVal
  | .hRef a => (h ++ [(hget h a).getD (.oStrs [])], .hRef h.length)
  | v => (h, v)

def deepcopySlots (h : Heap) : List (String × HVal) → Heap × List (String × HVal)
  | [] => (h, [])
  | (k, v) :: rest =>
      let hv := copyVal h v
      let hs := deepcopySlots hv.1 rest
      (hs.1, (k, hv.2) :: hs.2)

/-- `copy.deepcopy(DEFAULTS)`: copy every nested list, then allocate the
fresh dict. -/
def deepcopyDict (h : Heap) (a : Nat) : Heap × Nat :=
  match hget h a with
  | some (.oDict s) =>
      ((deepcopySlots h s).1 ++ [.oDict (deepcopySlots h s).2],
       (deepcopySlots h s).1.length)
  | _ => (h ++ [.oDict []], h.length)

/-- The `try` body of `parse_options`, acting on the heap: the options dict
lives at `optAddr`. -/
def tryProcessH (rc : String → Option String) (h : Heap) (optAddr : Nat)
    (entry : Custom) : Except PyExc Heap :=
  match entry.values[0]? with
  | none => .error .indexError
  | some v0 =>
    match v0 with
    | .pother => .error .assertionError
    | .pstr key =>
      if (keysOf DEFAULTS).contains key then
        if key = "default-file" then
          .ok (hDictSet h optAddr key (.hStr entry.meta.filename))
        else if key = "insert-entry" then
          match entry.values[1]? with
          | none => .error .indexError
          | some PyValue.pother => .error .typeError
          | some (PyValue.pstr pat) =>
            match rc pat with
            | none => .error .reError
            | some compiled =>
              match hDictGet h optAddr key with
              | some (.hRef a) =>
                  .ok (hAppendIns h a
                    ⟨entry.date, compiled, entry.meta.filename, entry.meta.lineno⟩)
              | _ => .ok h
        else
          match entry.values[1]? with
          | none => .error .indexError
          | some PyValue.pother => .error .assertionError
          | some (PyValue.pstr value) =>
            match processedValue key value with
            | .error e => .error e
            | .ok none => .ok h
            | .ok (some pv) =>
              if MULTI_OPTS.contains key then
                match hDictGet h optAddr key, pv with
                | some (.hRef a), .vStr s => .ok (hAppendStr h a s)
                | _, _ => .ok h
              else
                match pv with
                | .vBool b => .ok (hDictSet h optAddr key (.hBool b))
                | .vInt i => .ok (hDictSet h optAddr key (.hInt i))
                | .vStr s => .ok (hDictSet h optAddr key (.hStr s))
                | .vNone => .ok (hDictSet h optAddr key .hNone)
                | .vStrList xs =>
                    .ok (hDictSet (h ++ [.oStrs xs]) optAddr key (.hRef h.length))
                | .vInsertList _ => .ok h
      else .error .assertionError

/-- The entry loop on the heap; an uncaught exception aborts, leaving the
heap as it stood. -/
def parseLoopH (rc : String → Option String) (h : Heap) (optAddr : Nat)
    (errors : List OptionError) :
    List Custom → Heap × Except PyExc (List OptionError)
  | [] => (h, .ok errors)
  | entry :: rest =>
      if entry.type = "fava-option" then
        match tryProcessH rc h optAddr entry with
        | .ok h' => parseLoopH rc h' optAddr errors rest
        | .error e =>
            if caught e then
              parseLoopH rc h optAddr (errors ++ [mkOptionError entry]) rest
            else (h, .error e)
      else parseLoopH rc h optAddr errors rest

/-- `parse_options` on the heap: deep-copy the defaults dict, then loop. -/
def parse_options_heap (rc : String → Option String) (entries : List Custom) :
    Heap × Except PyExc (List OptionError) :=
  parseLoopH rc (deepcopyDict initHeap.1 initHeap.2).1
    (deepcopyDict initHeap.1 initHeap.2).2 [] entries

/-! ### The frame invariant: objects alive at module load never change -/

theorem take_set_of_le {α : Type _} (l : List α) (i : Nat) (n : Nat) (x : α)
    (h : n ≤ i) : (l.set i x).take n = l.take n := by
  apply List.ext_getElem?
  intro m
  rw [List.getElem?_take, List.getElem?_take]
  split
  · rename_i hm
    exact List.getElem?_set_ne (by omega)
  · rfl

/-- The pristine prefix `h0` is intact, the options dict lives at or above
`h0.length`, and every list it references lives at or above `h0.length`. -/
def HeapInv (h0 h : Heap) (optAddr : Nat) : Prop :=
  h.take h0.length = h0 ∧ h0.length ≤ optAddr ∧
  ∀ s, hget h optAddr = some (HObj.oDict s) →
    ∀ k a, (k, HVal.hRef a) ∈ s → h0.length ≤ a

theorem HeapInv.len_le {h0 h : Heap} {opt : Nat} (inv : HeapInv h0 h opt) :
    h0.length ≤ h.length := by
  have h1 := congrArg List.length inv.1
  rw [List.length_take] at h1
  calc h0.length = min h0.length h.length := h1.symm
    _ ≤ h.length := Nat.min_le_right _ _

theorem slotsGet_mem (s : List (String × HVal)) (k : String) (v : HVal)
    (h : slotsGet s k = some v) : (k, v) ∈ s := by
  induction s with
  | nil => simp [slotsGet] at h
  | cons p rest ih =>
      obtain ⟨k', v'⟩ := p
      by_cases hk : k' = k
      · subst hk
        simp [slotsGet] at h
        subst h
        exact List.mem_cons_self _ _
      · simp only [slotsGet, if_neg hk] at h
        exact List.mem_cons_of_mem _ (ih h)

theorem mem_slotsSet (s : List (String × HVal)) (k : String) (v : HVal)
    (p : String × HVal) (h : p ∈ slotsSet s k v) : p ∈ s ∨ p.2 = v := by
  induction s with
  | nil =>
      simp [slotsSet] at h
      exact Or.inr (by rw [h])
  | cons q rest ih =>
      obtain ⟨k', v'⟩ := q
      by_cases hk : k' = k
      · simp only [slotsSet, if_pos hk] at h
        rcases List.mem_cons.mp h with h' | h'
        · exact Or.inr (by rw [h'])
        · exact Or.inl (List.mem_cons_of_mem _ h')
      · simp only [slotsSet, if_neg hk] at h
        rcases List.mem_cons.mp h with h' | h'
        · exact Or.inl (h' ▸ List.mem_cons_self _ _)
        · rcases ih h' with h'' | h''
          · exact Or.inl (List.mem_cons_of_mem _ h'')
          · exact Or.inr h''

theorem HeapInv.set_nondict {h0 h : Heap} {opt : Nat} (inv : HeapInv h0 h opt)
    {a : Nat} {o : HObj} (ha : h0.length ≤ a) (ho : ∀ s, ¬o = HObj.oDict s) :
    HeapInv h0 (h.set a o) opt := by
  refine ⟨?_, inv.2.1, ?_⟩
  · rw [take_set_of_le h a h0.length o ha]; exact inv.1
  · intro s hs k b hmem
    by_cases hao : a = opt
    · subst hao
      rw [hget, List.getElem?_set] at hs
      simp only [if_pos rfl] at hs
      by_cases hlen : a < h.length
      · rw [if_pos hlen] at hs
        exact absurd (Option.some.inj hs) (ho s)
      · rw [if_neg hlen] at hs
        cases hs
    · rw [hget, List.getElem?_set_ne hao] at hs
      exact inv.2.2 s hs k b hmem

theorem HeapInv.snoc_nondict {h0 h : Heap} {opt : Nat} (inv : HeapInv h0 h opt)
    {o : HObj} (ho : ∀ s, ¬o = HObj.oDict s) :
    HeapInv h0 (h ++ [o]) opt := by
  refine ⟨?_, inv.2.1, ?_⟩
  · rw [List.take_append_of_le_length inv.len_le]; exact inv.1
  · intro s hs k b hmem
    rw [hget, List.getElem?_append] at hs
    split at hs
    · exact inv.2.2 s hs k b hmem
    · cases hd : opt - h.length with
      | zero =>
          rw [hd] at hs
          simp only [List.getElem?_cons_zero] at hs
          exact absurd (Option.some.inj hs) (ho s)
      | succ n =>
          rw [hd] at hs
          simp at hs

theorem HeapInv.dict_set {h0 h : Heap} {opt : Nat} (inv : HeapInv h0 h opt)
    {k : String} {v : HVal} (hv : ∀ a, v = HVal.hRef a → h0.length ≤ a) :
    HeapInv h0 (hDictSet h opt k v) opt := by
  unfold hDictSet
  split
  · rename_i s hs
    have hlt : opt < h.length := by
      rw [hget] at hs
      exact (List.getElem?_eq_some.mp hs).1
    refine ⟨?_, inv.2.1, ?_⟩
    · rw [take_set_of_le h opt h0.length _ inv.2.1]; exact inv.1
    · intro s' hs' k' b hmem
      rw [hget, List.getElem?_set_self hlt] at hs'
      cases Option.some.inj hs'
      rcases mem_slotsSet s k v (k', HVal.hRef b) hmem with hin | hv2
      · exact inv.2.2 s hs k' b hin
      · exact hv b hv2.symm
  · exact inv

theorem HeapInv.ref_ge {h0 h : Heap} {opt : Nat} (inv : HeapInv h0 h opt)
    {k : String} {a : Nat} (hg : hDictGet h opt k = some (HVal.hRef a)) :
    h0.length ≤ a := by
  unfold hDictGet at hg
  split at hg
  · rename_i s hs
    exact inv.2.2 s hs k a (slotsGet_mem s k _ hg)
  · cases hg

theorem HeapInv.append_str {h0 h : Heap} {opt : Nat} (inv : HeapInv h0 h opt)
    {a : Nat} (ha : h0.length ≤ a) (s : String) :
    HeapInv h0 (hAppendStr h a s) opt := by
  unfold hAppendStr
  split
  · exact inv.set_nondict ha (by intro s' hc; cases hc)
  · exact inv

theorem HeapInv.append_ins {h0 h : Heap} {opt : Nat} (inv : HeapInv h0 h opt)
    {a : Nat} (ha : h0.length ≤ a) (x : InsertEntryOption) :
    HeapInv h0 (hAppendIns h a x) opt := by
  unfold hAppendIns
  split
  · exact inv.set_nondict ha (by intro s' hc; cases hc)
  · exact inv

theorem tryProcessH_inv {h0 : Heap} (rc : String → Option String) (h : Heap)
    (opt : Nat) (entry : Custom) (h' : Heap)
    (inv : HeapInv h0 h opt)
    (hstep : tryProcessH rc h opt entry = .ok h') : HeapInv h0 h' opt := by
  unfold tryProcessH at hstep
  split at hstep
  · exact absurd hstep (by simp)
  · split at hstep
    · exact absurd hstep (by simp)
    · split at hstep
      · split at hstep
        · cases hstep
          exact inv.dict_set (by intro a ha; cases ha)
        · split at hstep
          · split at hstep
            · exact absurd hstep (by simp)
            · exact absurd hstep (by simp)
            · split at hstep
              · exact absurd hstep (by simp)
              · split at hstep
                · rename_i a hg
                  cases hstep
                  exact inv.append_ins (inv.ref_ge hg) _
                · cases hstep; exact inv
          · split at hstep
            · exact absurd hstep (by simp)
            · exact absurd hstep (by simp)
            · split at hstep
              · exact absurd hstep (by simp)
              · cases hstep; exact inv
              · split at hstep
                · split at hstep
                  · rename_i a s hg hpv
                    cases hstep
                    exact inv.append_str (inv.ref_ge hg) s
                  · cases hstep; exact inv
                · split at hstep
                  · cases hstep; exact inv.dict_set (by intro a ha; cases ha)
                  · cases hstep; exact inv.dict_set (by intro a ha; cases ha)
                  · cases hstep; exact inv.dict_set (by intro a ha; cases ha)
                  · cases hstep; exact inv.dict_set (by intro a ha; cases ha)
                  · cases hstep
                    exact (inv.snoc_nondict (by intro s' hc; cases hc)).dict_set
                      (by intro a ha; cases ha; exact inv.len_le)
                  · cases hstep; exact inv
      · exact absurd hstep (by simp)

theorem parseLoopH_inv {h0 : Heap} (rc : String → Option String) (opt : Nat) :
    ∀ (es : List Custom) (h : Heap) (errors : List OptionError),
      HeapInv h0 h opt → HeapInv h0 (parseLoopH rc h opt errors es).1 opt
  | [], _, _, inv => inv
  | entry :: rest, h, errors, inv => by
      unfold parseLoopH
      split
      · split
        · rename_i h' hstep
          exact parseLoopH_inv rc opt rest h' errors
            (tryProcessH_inv rc h opt entry h' inv hstep)
        · split
          · exact parseLoopH_inv rc opt rest h _ inv
          · exact inv
      · exact parseLoopH_inv rc opt rest h errors inv

/-! ### `deepcopy` establishes the invariant -/

theorem copyVal_fst (h : Heap) (v : HVal) :
    ∃ ext, (copyVal h v).1 = h ++ ext := by
  cases v with
  | hRef a => exact ⟨[(hget h a).getD (.oStrs [])], rfl⟩
  | hBool b => exact ⟨[], by simp [copyVal]⟩
  | hInt i => exact ⟨[], by simp [copyVal]⟩
  | hStr s => exact ⟨[], by simp [copyVal]⟩
  | hNone => exact ⟨[], by simp [copyVal]⟩

theorem copyVal_ref (h : Heap) (v : HVal) (a : Nat)
    (hr : (copyVal h v).2 = HVal.hRef a) : h.length ≤ a := by
  cases v with
  | hRef b => simp [copyVal] at hr; omega
  | hBool b => simp [copyVal] at hr
  | hInt i => simp [copyVal] at hr
  | hStr s => simp [copyVal] at hr
  | hNone => simp [copyVal] at hr

theorem deepcopySlots_fst :
    ∀ (s : List (String × HVal)) (h : Heap),
      ∃ ext, (deepcopySlots h s).1 = h ++ ext
  | [], h => ⟨[], by simp [deepcopySlots]⟩
  | (k, v) :: rest, h => by
      obtain ⟨e1, h1⟩ := copyVal_fst h v
      obtain ⟨e2, h2⟩ := deepcopySlots_fst rest (copyVal h v).1
      exact ⟨e1 ++ e2, by
        show (deepcopySlots (copyVal h v).1 rest).1 = h ++ (e1 ++ e2)
        rw [h2, h1, List.append_assoc]⟩

theorem deepcopySlots_len (s : List (String × HVal)) (h : Heap) :
    h.length ≤ (deepcopySlots h s).1.length := by
  obtain ⟨ext, hext⟩ := deepcopySlots_fst s h
  rw [hext, List.length_append]
  omega

theorem deepcopySlots_refs :
    ∀ (s : List (String × HVal)) (h : Heap) (k : String) (a : Nat),
      (k, HVal.hRef a) ∈ (deepcopySlots h s).2 → h.length ≤ a
  | [], h, k, a, hm => by simp [deepcopySlots] at hm
  | (k', v) :: rest, h, k, a, hm => by
      have hm' : (k, HVal.hRef a) ∈
          (k', (copyVal h v).2) :: (deepcopySlots (copyVal h v).1 rest).2 := hm
      rcases List.mem_cons.mp hm' with heq | htl
      · exact copyVal_ref h v a (congrArg Prod.snd heq).symm
      · have h1 := deepcopySlots_refs rest (copyVal h v).1 k a htl
        obtain ⟨e1, he1⟩ := copyVal_fst h v
        rw [he1, List.length_append] at h1
        omega

theorem deepcopyDict_inv (h : Heap) (ad : Nat) :
    HeapInv h (deepcopyDict h ad).1 (deepcopyDict h ad).2 := by
  unfold deepcopyDict
  split
  · rename_i s hs
    refine ⟨?_, deepcopySlots_len s h, ?_⟩
    · obtain ⟨ext, hext⟩ := deepcopySlots_fst s h
      rw [hext, List.append_assoc,
        List.take_append_of_le_length (Nat.le_refl _), List.take_length]
    · intro s' hs' k a hm
      rw [hget, List.getElem?_concat_length] at hs'
      cases Option.some.inj hs'
      exact deepcopySlots_refs s h k a hm
  · refine ⟨?_, Nat.le_refl _, ?_⟩
    · rw [List.take_append_of_le_length (Nat.le_refl _), List.take_length]
    · intro s' hs' k a hm
      rw [hget, List.getElem?_concat_length] at hs'
      cases Option.some.inj hs'
      simp at hm

/-- C8: No run mutates the module-load heap: for every input sequence
(including runs that append to `insert-entry` or `collapse-pattern` lists,
and runs aborted by an uncaught exception) the final heap still carries the
`DEFAULTS` dict and all its nested list objects unchanged as its pristine
prefix, so every subsequent run starts from pristine defaults. -/
theorem defaults_heap_unchanged (rc : String → Option String)
    (entries : List Custom) :
    (parse_options_heap rc entries).1.take initHeap.1.length = initHeap.1 :=
  (parseLoopH_inv rc (deepcopyDict initHeap.1 initHeap.2).2 entries
    (deepcopyDict initHeap.1 initHeap.2).1 []
    (deepcopyDict_inv initHeap.1 initHeap.2)).1

end FavaOptions
